import Mathlib

/-!
Shallow embedding of the token-pool core of the grok2api repository:
the credential entity and its state machine (`app/services/token/models.py`),
the pool selector (`app/services/token/pool.py`), and the manager's
lookup/consume/sync/fail/add operations and debounced-flush bookkeeping
(`app/services/token/manager.py`).

Python `int` quota is embedded as `Int`; wall-clock timestamps
(`datetime.now()`) are passed in explicitly as a `now : Nat` parameter;
the random draw of `random.choice` is passed in as an index `r : Nat`
used modulo the candidate count; the outcome of the external usage-query
collaborator is passed in as an `Option Int` (`some v` = a response
carrying `remainingTokens = v`, `none` = any failure).
-/

/-- The `TokenStatus` from models.py. -/
inductive TokenStatus
  | active
  | disabled
  | expired
  | cooling
deriving DecidableEq

/-- The `EffortType` from models.py. -/
inductive EffortType
  | low
  | high
deriving DecidableEq

/-- The `EFFORT_COST` from models.py: LOW costs 1, HIGH costs 4. -/
def EFFORT_COST : EffortType → Int
  | EffortType.low => 1
  | EffortType.high => 4

/-- The `DEFAULT_QUOTA` from models.py. -/
def DEFAULT_QUOTA : Int := 80

/-- The `FAIL_THRESHOLD` from models.py. -/
def FAIL_THRESHOLD : Nat := 5

/-- The `TokenInfo` from models.py (pydantic model). -/
structure TokenInfo where
  token : String
  status : TokenStatus
  quota : Int
  created_at : Nat
  last_used_at : Option Nat
  use_count : Nat
  fail_count : Nat
  last_fail_at : Option Nat
  last_fail_reason : Option String
  last_sync_at : Option Nat
  tags : List String
  note : String
  last_asset_clear_at : Option Nat
deriving DecidableEq

/-- A `TokenInfo(token=s)` with pydantic defaults, as built by `TokenManager.add`. -/
def default_token (s : String) (now : Nat) : TokenInfo :=
  { token := s
    status := TokenStatus.active
    quota := DEFAULT_QUOTA
    created_at := now
    last_used_at := none
    use_count := 0
    fail_count := 0
    last_fail_at := none
    last_fail_reason := none
    last_sync_at := none
    tags := []
    note := ""
    last_asset_clear_at := none }

/-- The `TokenInfo.is_available` from models.py. -/
def is_available (t : TokenInfo) : Bool :=
  decide (t.status = TokenStatus.active) && decide (0 < t.quota)

/-- The `TokenInfo.consume` from models.py: returns the updated record and the
actually deducted amount (`min(cost, quota)`). -/
def consume (t : TokenInfo) (effort : EffortType) (now : Nat) : TokenInfo × Int :=
  let cost := EFFORT_COST effort
  let actual_cost := min cost t.quota
  let quota1 := max 0 (t.quota - cost)
  let status1 :=
    if quota1 = 0 then TokenStatus.cooling
    else if t.status = TokenStatus.cooling ∨ t.status = TokenStatus.expired then
      TokenStatus.active
    else t.status
  ({ t with
      last_used_at := some now
      use_count := t.use_count + 1
      quota := quota1
      fail_count := 0
      last_fail_reason := none
      status := status1 }, actual_cost)

/-- The `TokenInfo.update_quota` from models.py. -/
def update_quota (t : TokenInfo) (new_quota : Int) : TokenInfo :=
  let quota1 := max 0 new_quota
  let status1 :=
    if quota1 = 0 then TokenStatus.cooling
    else if 0 < quota1 ∧ (t.status = TokenStatus.cooling ∨ t.status = TokenStatus.expired) then
      TokenStatus.active
    else t.status
  { t with quota := quota1, status := status1 }

/-- The `TokenInfo.reset` from models.py. -/
def reset (t : TokenInfo) : TokenInfo :=
  { t with
      quota := DEFAULT_QUOTA
      status := TokenStatus.active
      fail_count := 0
      last_fail_reason := none }

/-- The `TokenInfo.record_fail` from models.py: only a 401 counts; at
`FAIL_THRESHOLD` the credential is forced to expired. -/
def record_fail (t : TokenInfo) (status_code : Nat) (reason : String) (now : Nat) : TokenInfo :=
  if status_code ≠ 401 then t
  else
    let fc := t.fail_count + 1
    { t with
        fail_count := fc
        last_fail_at := some now
        last_fail_reason := some reason
        status := if FAIL_THRESHOLD ≤ fc then TokenStatus.expired else t.status }

/-- The `TokenInfo.record_success` from models.py. -/
def record_success (t : TokenInfo) (is_usage : Bool) (now : Nat) : TokenInfo :=
  let t1 := { t with
      fail_count := 0
      last_fail_at := none
      last_fail_reason := (none : Option String) }
  let t2 :=
    if is_usage then
      { t1 with use_count := t1.use_count + 1, last_used_at := some now }
    else t1
  { t2 with
      status := if t2.quota = 0 then TokenStatus.cooling else TokenStatus.active }

/-- The `n` successive `consume(HIGH)` calls. -/
def consume_high_iter (now : Nat) : Nat → TokenInfo → TokenInfo
  | 0, t => t
  | Nat.succ n, t => consume_high_iter now n (consume t EffortType.high now).1

/-- The `n` successive `record_fail(401, reason)` calls. -/
def record_fail_iter (reason : String) (now : Nat) : Nat → TokenInfo → TokenInfo
  | 0, t => t
  | Nat.succ n, t => record_fail_iter reason now n (record_fail t 401 reason now)

/-- The `TokenPool.select` from pool.py. The pool's tokens are listed in dict
insertion order; the uniform random draw of `random.choice` is supplied as
`r`, reduced modulo the number of tied candidates. -/
def select (pool : List TokenInfo) (r : Nat) : Option TokenInfo :=
  match pool.filter (fun t => decide (t.status = TokenStatus.active) && decide (0 < t.quota)) with
  | [] => none
  | a :: rest =>
    let max_quota := rest.foldl (fun m t => max m t.quota) a.quota
    let candidates := (a :: rest).filter (fun t => decide (t.quota = max_quota))
    candidates[r % candidates.length]?

/-- One left-to-right non-overlapping pass deleting `"sso="`, the behaviour
of Python's `token_str.replace("sso=", "")`. -/
def strip_sso_all : List Char → List Char
  | [] => []
  | [c] => [c]
  | [c1, c2] => [c1, c2]
  | [c1, c2, c3] => [c1, c2, c3]
  | c1 :: c2 :: c3 :: c4 :: rest =>
    if c1 = 's' ∧ c2 = 's' ∧ c3 = 'o' ∧ c4 = '=' then strip_sso_all rest
    else c1 :: strip_sso_all (c2 :: c3 :: c4 :: rest)

/-- The `token_str.replace("sso=", "")`, the raw-token resolution used by
`TokenManager.consume`, `TokenManager.sync_usage` and `TokenManager.record_fail`. -/
def raw_token (s : String) : String :=
  String.mk (strip_sso_all s.data)

/-- The `token[4:] if token.startswith("sso=") else token`, the leading-only strip
used by `TokenManager.add`. -/
def strip_leading_sso (s : String) : String :=
  match s.data with
  | 's' :: 's' :: 'o' :: '=' :: rest => String.mk rest
  | _ => s

/-- The manager's pools: an association of pool name to the pool's tokens
(dict iteration order preserved). -/
abbrev Pools := List (String × List TokenInfo)

/-- The `TokenPool.get` / `self._tokens.get(token_str)` from pool.py. -/
def pool_get (ts : List TokenInfo) (key : String) : Option TokenInfo :=
  ts.find? (fun t => decide (t.token = key))

/-- The `for pool in self.pools.values(): token = pool.get(raw)` — the first hit
across pools, as in manager.py lookups. -/
def find_token : Pools → String → Option TokenInfo
  | [], _ => none
  | (_, ts) :: rest, key =>
    match pool_get ts key with
    | some t => some t
    | none => find_token rest key

/-- Replace the (unique) token with the given key inside one pool by `f` of it;
in the Python original the `TokenInfo` object is mutated in place. -/
def apply_tok (ts : List TokenInfo) (key : String) (f : TokenInfo → TokenInfo) :
    List TokenInfo :=
  match ts with
  | [] => []
  | t :: rest =>
    if t.token = key then f t :: rest else t :: apply_tok rest key f

/-- Locate a token by key across pools (first pool containing it wins) and
apply `f` to it there; returns the new pools and whether the key was found.
This is the shared shape of `TokenManager.consume` / `record_fail` /
`sync_usage`'s in-place mutation of the found `TokenInfo`. -/
def update_first (pools : Pools) (key : String) (f : TokenInfo → TokenInfo) :
    Pools × Bool :=
  match pools with
  | [] => ([], false)
  | (pn, ts) :: rest =>
    if (pool_get ts key).isSome then ((pn, apply_tok ts key f) :: rest, true)
    else
      let r := update_first rest key f
      ((pn, ts) :: r.1, r.2)

/-- The `TokenManager.consume` from manager.py (the debounced save has no effect
on pool state and is modelled separately). -/
def mgr_consume (pools : Pools) (token_str : String) (effort : EffortType) (now : Nat) :
    Pools × Bool :=
  update_first pools (raw_token token_str) (fun t => (consume t effort now).1)

/-- The `TokenManager.record_fail` from manager.py: a non-401 status code is
logged but the credential is not touched. -/
def mgr_record_fail (pools : Pools) (token_str : String) (status_code : Nat)
    (reason : String) (now : Nat) : Pools × Bool :=
  update_first pools (raw_token token_str)
    (fun t => if status_code = 401 then record_fail t status_code reason now else t)

/-- The `TokenManager.sync_usage` from manager.py. `query` is the outcome of
`UsageService.get`: `some v` when it returns a result carrying
`remainingTokens = v`, `none` on an exception or a result without that key. -/
def mgr_sync_usage (pools : Pools) (token_str : String) (query : Option Int)
    (fallback_effort : EffortType) (consume_on_fail : Bool) (is_usage : Bool)
    (now : Nat) : Pools × Bool :=
  let raw := raw_token token_str
  match find_token pools raw with
  | none => (pools, false)
  | some _ =>
    match query with
    | some v =>
      ((update_first pools raw (fun t => record_success (update_quota t v) is_usage now)).1,
        true)
    | none =>
      if consume_on_fail then mgr_consume pools token_str fallback_effort now
      else (pools, false)

/-- The `if pool_name not in self.pools: self.pools[pool_name] = TokenPool(pool_name)`. -/
def ensure_pool (pools : Pools) (pn : String) : Pools :=
  if pools.any (fun p => decide (p.1 = pn)) then pools else pools ++ [(pn, [])]

/-- Look a pool up by name. -/
def pool_find (pools : Pools) (pn : String) : Option (List TokenInfo) :=
  (pools.find? (fun p => decide (p.1 = pn))).map (fun p => p.2)

/-- The `pool.add(TokenInfo(token=token))`: append the new token to the named pool. -/
def pool_append (pools : Pools) (pn : String) (t : TokenInfo) : Pools :=
  pools.map (fun p => if p.1 = pn then (p.1, p.2 ++ [t]) else p)

/-- The `TokenManager.add` from manager.py: create the pool if absent, strip a
leading `sso=`, reject when the secret already exists in the *target* pool,
otherwise insert a default-initialized credential. -/
def mgr_add (pools : Pools) (token : String) (pn : String) (now : Nat) : Pools × Bool :=
  let pools1 := ensure_pool pools pn
  let raw := strip_leading_sso token
  let ts := (pool_find pools1 pn).getD []
  if (pool_get ts raw).isSome then (pools1, false)
  else (pool_append pools1 pn (default_token raw now), true)

/-- Whether the named pool holds a credential with the given secret. -/
def pool_contains (pools : Pools) (pn : String) (secret : String) : Bool :=
  pools.any (fun p => decide (p.1 = pn) && p.2.any (fun t => decide (t.token = secret)))

/-- The `TokenManager._save` from manager.py, as a function of the storage
backend's outcome (lock acquisition plus write): the `try/except` catches
every storage error, emits a log line, and re-raises nothing, so `_save`
itself always returns normally. First component: what `_save` raises
(always `ok`); second: the log lines it emits. -/
def save_run (storage_result : Except String Unit) : Except String Unit × List String :=
  match storage_result with
  | Except.ok _ => (Except.ok (), [])
  | Except.error e => (Except.ok (), ["Failed to save tokens: " ++ e])

/-- One armed iteration of `TokenManager._flush_loop` entered with the given
dirty flag: if dirty, the loop clears the flag *before* awaiting `_save`;
`_save` swallows storage errors. Returns the dirty flag after the
iteration, what escaped to the flush task, and the log lines. -/
def flush_iter (dirty : Bool) (storage_result : Except String Unit) :
    Bool × Except String Unit × List String :=
  if dirty then
    let r := save_run storage_result
    (false, r.1, r.2)
  else
    (dirty, Except.ok (), [])

/-- The effect of `TokenManager._schedule_save` on the dirty flag: every
mutation sets it. -/
def schedule_save_dirty (_dirty : Bool) : Bool := true

/-- The cooled-down credential of the C5 scenario: a fresh credential after
20 `consume(high)` calls. -/
def c5_cooling : TokenInfo := consume_high_iter 0 20 (default_token "c5" 0)

/-- A credential put into the administrative Disabled state. -/
def c7_disabled : TokenInfo := { default_token "c7" 0 with status := TokenStatus.disabled }

/-- The subset of the availability-filtered list tied at the maximal quota,
as computed inside `select`. -/
def tied_candidates (a : TokenInfo) (rest : List TokenInfo) : List TokenInfo :=
  (a :: rest).filter (fun t => decide (t.quota = rest.foldl (fun m t => max m t.quota) a.quota))

/-- The C1 example pool: three Active credentials with quotas 10, 10, 5. -/
def c1_a : TokenInfo := { default_token "c1a" 0 with quota := 10 }

/-- Second quota-10 credential of the C1 example pool. -/
def c1_b : TokenInfo := { default_token "c1b" 0 with quota := 10 }

/-- Quota-5 credential of the C1 example pool. -/
def c1_c : TokenInfo := { default_token "c1c" 0 with quota := 5 }

/-- The C1 example pool. -/
def c1_pool : List TokenInfo := [c1_a, c1_b, c1_c]

/-- The C6 example pools: one pool holding one credential. -/
def c6_pools : Pools := [("p6", [default_token "tok6" 0])]

/-- The C9 example pools: secret `sec9` lives in pool `A`; pool `B` exists
and is empty. -/
def c9_pools : Pools := [("A", [default_token "sec9" 0]), ("B", [])]

/-- The C10 example pools: one stored secret containing `sso=` as an inner
substring. -/
def c10_pools : Pools := [("p10", [default_token "xsso=y" 0])]

/-- The witness pools for C10: a stored secret equal to the resolution key of
`xsso=y`. -/
def c10w_pools : Pools := [("pw", [default_token "xy" 0])]

example : (consume (default_token "a" 0) EffortType.low 0).2 = 1 := by decide

example : (consume_high_iter 0 20 (default_token "a" 0)).quota = 0 := by decide

example : (consume_high_iter 0 20 (default_token "a" 0)).status = TokenStatus.cooling := by
  decide

example : raw_token "sso=abc" = "abc" := by decide

example : raw_token "asso=b" = "ab" := by decide

example : raw_token "xsssso=o=y" = "xsso=y" := by decide

example : strip_leading_sso "sso=abc" = "abc" := by decide

example : strip_leading_sso "asso=b" = "asso=b" := by decide

/-! Helper lemmas about the quota fold used by `select` -/

theorem le_quota_foldl_init (l : List TokenInfo) :
    ∀ i : Int, i ≤ l.foldl (fun m t => max m t.quota) i := by
  induction l with
  | nil => intro i; exact le_refl i
  | cons a l ih =>
    intro i
    exact le_trans (le_max_left i a.quota) (ih (max i a.quota))

theorem le_quota_foldl_of_mem (l : List TokenInfo) :
    ∀ i : Int, ∀ t ∈ l, t.quota ≤ l.foldl (fun m t => max m t.quota) i := by
  induction l with
  | nil => intro i t ht; simp at ht
  | cons a l ih =>
    intro i t ht
    rcases List.mem_cons.mp ht with h | h
    · subst h
      exact le_trans (le_max_right i t.quota) (le_quota_foldl_init l (max i t.quota))
    · exact ih (max i a.quota) t h

theorem quota_foldl_eq_init_or_mem (l : List TokenInfo) :
    ∀ i : Int, l.foldl (fun m t => max m t.quota) i = i ∨
      ∃ t ∈ l, l.foldl (fun m t => max m t.quota) i = t.quota := by
  induction l with
  | nil => intro i; exact Or.inl rfl
  | cons a l ih =>
    intro i
    rcases ih (max i a.quota) with h | ⟨t, ht, h⟩
    · rcases le_total i a.quota with hle | hle
      · refine Or.inr ⟨a, List.mem_cons_self a l, ?_⟩
        simpa [List.foldl_cons, max_eq_right hle] using h
      · refine Or.inl ?_
        simpa [List.foldl_cons, max_eq_left hle] using h
    · exact Or.inr ⟨t, List.mem_cons_of_mem a ht, by simpa [List.foldl_cons] using h⟩

theorem exists_mem_quota_eq_foldl (a : TokenInfo) (l : List TokenInfo) :
    ∃ t ∈ a :: l, t.quota = l.foldl (fun m t => max m t.quota) a.quota := by
  rcases quota_foldl_eq_init_or_mem l a.quota with h | ⟨t, ht, h⟩
  · exact ⟨a, List.mem_cons_self a l, h.symm⟩
  · exact ⟨t, List.mem_cons_of_mem a ht, h.symm⟩

/-! Helper lemmas about `strip_sso_all` -/

theorem strip_sso_all_sso_cons (l : List Char) :
    strip_sso_all ('s' :: 's' :: 'o' :: '=' :: l) = strip_sso_all l := by
  simp [strip_sso_all]

theorem strip_sso_all_length_le (l : List Char) :
    (strip_sso_all l).length ≤ l.length := by
  suffices h : ∀ n (l : List Char), l.length ≤ n → (strip_sso_all l).length ≤ l.length from
    h l.length l le_rfl
  intro n
  induction n with
  | zero =>
    intro l hl
    rcases l with _ | ⟨c, l⟩
    · simp [strip_sso_all]
    · simp at hl
  | succ n ih =>
    intro l hl
    rcases l with _ | ⟨c1, _ | ⟨c2, _ | ⟨c3, _ | ⟨c4, rest⟩⟩⟩⟩
    · simp [strip_sso_all]
    · simp [strip_sso_all]
    · simp [strip_sso_all]
    · simp [strip_sso_all]
    · simp only [strip_sso_all]
      split
      · have h1 := ih rest (by simp at hl ⊢; omega)
        simp only [List.length_cons]
        omega
      · have h1 := ih (c2 :: c3 :: c4 :: rest) (by simp at hl ⊢; omega)
        simp only [List.length_cons] at h1 ⊢
        omega

theorem strip_sso_all_length_lt (l : List Char) (h : ['s', 's', 'o', '='] <:+: l) :
    (strip_sso_all l).length < l.length := by
  suffices hs : ∀ n (l : List Char), l.length ≤ n → ['s', 's', 'o', '='] <:+: l →
      (strip_sso_all l).length < l.length from hs l.length l le_rfl h
  intro n
  induction n with
  | zero =>
    intro l hl hinf
    have := hinf.length_le
    simp at this
    omega
  | succ n ih =>
    intro l hl hinf
    rcases l with _ | ⟨c1, _ | ⟨c2, _ | ⟨c3, _ | ⟨c4, rest⟩⟩⟩⟩
    · have := hinf.length_le; simp at this
    · have := hinf.length_le; simp at this
    · have := hinf.length_le; simp at this
    · have := hinf.length_le; simp at this
    · simp only [strip_sso_all]
      split
      · have h1 := strip_sso_all_length_le rest
        simp only [List.length_cons]
        omega
      · rename_i hcond
        obtain ⟨u, v, huv⟩ := hinf
        rcases u with _ | ⟨x, u⟩
        · exfalso
          simp only [List.nil_append, List.cons_append, List.cons.injEq] at huv
          exact hcond ⟨huv.1.symm, huv.2.1.symm, huv.2.2.1.symm, huv.2.2.2.1.symm⟩
        · have htail : ['s', 's', 'o', '='] <:+: (c2 :: c3 :: c4 :: rest) := by
            refine ⟨u, v, ?_⟩
            simpa using congrArg List.tail huv
          have h1 := ih (c2 :: c3 :: c4 :: rest) (by simp at hl ⊢; omega) htail
          simp only [List.length_cons] at h1 ⊢
          omega

/-! Helper lemmas about manager lookups and updates -/

theorem pool_get_some_key {ts : List TokenInfo} {key : String} {t : TokenInfo}
    (h : pool_get ts key = some t) : t.token = key := by
  have := List.find?_some h
  simpa using this

theorem find_token_some_key {pools : Pools} {key : String} {t : TokenInfo}
    (h : find_token pools key = some t) : t.token = key := by
  induction pools with
  | nil => simp [find_token] at h
  | cons p rest ih =>
    rw [find_token] at h
    rcases hp : pool_get p.2 key with _ | t1
    · rw [hp] at h
      exact ih h
    · rw [hp] at h
      cases h
      exact pool_get_some_key hp

theorem pool_get_apply_tok (ts : List TokenInfo) (key : String) (f : TokenInfo → TokenInfo)
    (hf : ∀ t, (f t).token = t.token) :
    pool_get (apply_tok ts key f) key = (pool_get ts key).map f := by
  induction ts with
  | nil => simp [apply_tok, pool_get]
  | cons t rest ih =>
    by_cases h : t.token = key
    · simp [apply_tok, pool_get, h, hf]
    · have hd : (decide (t.token = key)) = false := by simp [h]
      simp only [apply_tok, if_neg h, pool_get, List.find?_cons, hd]
      exact ih

theorem find_token_update_first (pools : Pools) (key : String) (f : TokenInfo → TokenInfo)
    (hf : ∀ t, (f t).token = t.token) :
    find_token (update_first pools key f).1 key = (find_token pools key).map f := by
  induction pools with
  | nil => simp [find_token, update_first]
  | cons p rest ih =>
    obtain ⟨pn, ts⟩ := p
    rcases hp : pool_get ts key with _ | t1
    · simp only [update_first, find_token, hp, Option.isSome_none, Bool.false_eq_true,
        if_false]
      exact ih
    · simp only [update_first, find_token, hp, Option.isSome_some, if_true]
      rw [pool_get_apply_tok ts key f hf, hp]
      rfl

theorem update_first_found (pools : Pools) (key : String) (f : TokenInfo → TokenInfo) :
    (update_first pools key f).2 = (find_token pools key).isSome := by
  induction pools with
  | nil => simp [find_token, update_first]
  | cons p rest ih =>
    obtain ⟨pn, ts⟩ := p
    rcases hp : pool_get ts key with _ | t1
    · simp only [update_first, find_token, hp, Option.isSome_none, Bool.false_eq_true,
        if_false]
      exact ih
    · simp only [update_first, find_token, hp, Option.isSome_some, if_true]

theorem pool_find_ensure_pool_isSome (pools : Pools) (pn : String) :
    (pool_find (ensure_pool pools pn) pn).isSome = true := by
  simp only [pool_find, Option.isSome_map', List.find?_isSome]
  rw [ensure_pool]
  split
  · rename_i hany
    obtain ⟨p, hp, hpn⟩ := List.any_eq_true.mp hany
    exact ⟨p, hp, hpn⟩
  · exact ⟨(pn, []), by simp, by simp⟩

/-! Helper lemmas about consume and record_fail iteration -/

theorem consume_quota_nonneg (t : TokenInfo) (e : EffortType) (now : Nat) :
    0 ≤ (consume t e now).1.quota := by
  simp only [consume]
  exact le_max_left 0 _

theorem consume_high_iter_nonneg (now : Nat) :
    ∀ (k : Nat) (t : TokenInfo), 0 ≤ t.quota → 0 ≤ (consume_high_iter now k t).quota := by
  intro k
  induction k with
  | zero => intro t h; exact h
  | succ k ih =>
    intro t _
    exact ih (consume t EffortType.high now).1 (consume_quota_nonneg t EffortType.high now)

theorem record_fail_401_fail_count (t : TokenInfo) (reason : String) (now : Nat) :
    (record_fail t 401 reason now).fail_count = t.fail_count + 1 := by
  simp [record_fail]

theorem record_fail_iter_count (reason : String) (now : Nat) :
    ∀ (n : Nat) (t : TokenInfo),
      (record_fail_iter reason now n t).fail_count = t.fail_count + n := by
  intro n
  induction n with
  | zero => intro t; simp [record_fail_iter]
  | succ n ih =>
    intro t
    rw [record_fail_iter, ih, record_fail_401_fail_count]
    omega

theorem record_fail_iter_expired_aux (reason : String) (now : Nat) :
    ∀ (n : Nat) (t : TokenInfo), 1 ≤ n → FAIL_THRESHOLD ≤ t.fail_count + n →
      (record_fail_iter reason now n t).status = TokenStatus.expired := by
  intro n
  induction n with
  | zero => intro t h1; omega
  | succ n ih =>
    intro t _ h5
    rcases Nat.eq_zero_or_pos n with hn | hn
    · subst hn
      simp only [record_fail_iter, record_fail]
      rw [if_neg (by simp)]
      simp only []
      rw [if_pos (by simp only [FAIL_THRESHOLD] at h5 ⊢; omega)]
    · rw [record_fail_iter]
      refine ih (record_fail t 401 reason now) hn ?_
      rw [record_fail_401_fail_count]
      omega

/-! Claim theorems -/

/-- C2: `consume(effort)` deducts `min(cost, quota)` from quota (cost 1 for
low, 4 for high), returns the amount actually deducted, increments
`useCount`, sets `lastUsedAt`, clears `failCount` and `lastFailReason`,
moves to Cooling when the resulting quota is 0 and moves a Cooling or
Expired credential back to Active when quota stays positive; from quota=80,
`consume(low)` then `consume(high)` leaves 75, and 20 `consume(high)` calls
leave quota exactly 0 with status Cooling, never negative. -/
theorem consume_spec (t : TokenInfo) (e : EffortType) (now : Nat) :
    (consume t e now).2 = min (EFFORT_COST e) t.quota ∧
    (consume t e now).1.quota = t.quota - min (EFFORT_COST e) t.quota ∧
    (consume t e now).1.use_count = t.use_count + 1 ∧
    (consume t e now).1.last_used_at = some now ∧
    (consume t e now).1.fail_count = 0 ∧
    (consume t e now).1.last_fail_reason = none ∧
    ((consume t e now).1.quota = 0 → (consume t e now).1.status = TokenStatus.cooling) ∧
    ((t.status = TokenStatus.cooling ∨ t.status = TokenStatus.expired) →
      0 < (consume t e now).1.quota → (consume t e now).1.status = TokenStatus.active) ∧
    (consume (consume (default_token "c2" 0) EffortType.low 0).1 EffortType.high 0).1.quota
      = 75 ∧
    (consume_high_iter 0 20 (default_token "c2" 0)).quota = 0 ∧
    (consume_high_iter 0 20 (default_token "c2" 0)).status = TokenStatus.cooling ∧
    ∀ k, 0 ≤ (consume_high_iter 0 k (default_token "c2" 0)).quota := by
  refine ⟨rfl, ?_, rfl, rfl, rfl, rfl, ?_, ?_, by decide, by decide, by decide, ?_⟩
  · simp only [consume]
    omega
  · intro h
    simp only [consume] at h ⊢
    rw [if_pos h]
  · intro hst hq
    simp only [consume] at hq ⊢
    rw [if_neg (by omega), if_pos hst]
  · intro k
    exact consume_high_iter_nonneg 0 k (default_token "c2" 0) (by decide)

/-- Witness for C2 at a concrete input. -/
theorem consume_spec_witness :
    (consume (default_token "c2w" 0) EffortType.high 5).2 = 4 ∧
    (consume (default_token "c2w" 0) EffortType.high 5).1.quota = 76 :=
  have h := consume_spec (default_token "c2w" 0) EffortType.high 5
  ⟨by rw [h.1]; decide, by rw [h.2.1]; decide⟩

/-- C3: starting from `quota ≥ 0`, every state-machine operation (consume
with any effort, updateQuota with any integer, recordFail with any status
code, recordSuccess, reset) leaves `quota ≥ 0`. -/
theorem quota_nonneg_spec (t : TokenInfo) (h : 0 ≤ t.quota) :
    (∀ e now, 0 ≤ (consume t e now).1.quota) ∧
    (∀ n : Int, 0 ≤ (update_quota t n).quota) ∧
    (∀ sc reason now, 0 ≤ (record_fail t sc reason now).quota) ∧
    (∀ b now, 0 ≤ (record_success t b now).quota) ∧
    0 ≤ (reset t).quota := by
  refine ⟨fun e now => consume_quota_nonneg t e now, fun n => ?_,
    fun sc reason now => ?_, fun b now => ?_, ?_⟩
  · simp only [update_quota]
    exact le_max_left 0 n
  · simp only [record_fail]
    split
    · exact h
    · exact h
  · cases b <;> simpa [record_success] using h
  · simp only [reset, DEFAULT_QUOTA]
    norm_num

/-- Witness for C3 at a concrete input. -/
theorem quota_nonneg_spec_witness :
    (0 : Int) ≤ (default_token "c3w" 0).quota ∧
    0 ≤ (update_quota (default_token "c3w" 0) (-7)).quota :=
  ⟨by decide, (quota_nonneg_spec (default_token "c3w" 0) (by decide)).2.1 (-7)⟩

/-- C4: with `failCount = 0`, `recordFail` with a non-401 status code is a
complete no-op; five successive `recordFail(401, ...)` calls leave
`failCount = 5` and force status Expired. -/
theorem record_fail_spec (t : TokenInfo) (sc : Nat) (reason : String) (now : Nat)
    (hsc : sc ≠ 401) (h0 : t.fail_count = 0) :
    record_fail t sc reason now = t ∧
    (record_fail_iter reason now 5 t).fail_count = 5 ∧
    (record_fail_iter reason now 5 t).status = TokenStatus.expired := by
  refine ⟨?_, ?_, ?_⟩
  · simp [record_fail, hsc]
  · rw [record_fail_iter_count, h0]
  · exact record_fail_iter_expired_aux reason now 5 t (by omega)
      (by simp only [FAIL_THRESHOLD]; omega)

/-- Witness for C4 at a concrete input. -/
theorem record_fail_spec_witness :
    record_fail (default_token "c4w" 0) 500 "err" 3 = default_token "c4w" 0 ∧
    (record_fail_iter "err" 3 5 (default_token "c4w" 0)).status = TokenStatus.expired :=
  have h := record_fail_spec (default_token "c4w" 0) 500 "err" 3 (by decide) (by decide)
  ⟨h.1, h.2.2⟩

set_option maxRecDepth 4000 in
/-- C5: `updateQuota(n)` sets quota to `max(n, 0)`; resulting quota 0 forces
Cooling, and a positive resulting quota flips a Cooling/Expired credential
to Active; the fresh-80 → 20×consume(high) → updateQuota(50) scenario ends
Active with quota 50. -/
theorem update_quota_spec (t : TokenInfo) (n : Int) :
    (update_quota t n).quota = max n 0 ∧
    ((update_quota t n).quota = 0 → (update_quota t n).status = TokenStatus.cooling) ∧
    ((t.status = TokenStatus.cooling ∨ t.status = TokenStatus.expired) →
      0 < (update_quota t n).quota → (update_quota t n).status = TokenStatus.active) ∧
    c5_cooling.status = TokenStatus.cooling ∧
    c5_cooling.quota = 0 ∧
    (update_quota c5_cooling 50).status = TokenStatus.active ∧
    (update_quota c5_cooling 50).quota = 50 := by
  refine ⟨?_, ?_, ?_, by decide, by decide, by decide, by decide⟩
  · simp only [update_quota]
    omega
  · intro h
    simp only [update_quota] at h ⊢
    rw [if_pos h]
  · intro hst hq
    simp only [update_quota] at hq ⊢
    rw [if_neg (by omega), if_pos ⟨hq, hst⟩]

/-- Witness for C5 at a concrete input. -/
theorem update_quota_spec_witness :
    (update_quota c5_cooling 50).status = TokenStatus.active ∧
    (update_quota c5_cooling 50).quota = max 50 0 :=
  have h := update_quota_spec c5_cooling 50
  ⟨h.2.2.1 (Or.inl (by decide)) (by decide), h.1⟩

/-- C7 counterexample: a single `record_success` moves a Disabled credential
to Active, so Disabled does not survive every sequence of core operations. -/
theorem disabled_status_cex :
    c7_disabled.status = TokenStatus.disabled ∧
    (record_success c7_disabled true 0).status = TokenStatus.active := by decide

/-- C7 (amended): Disabled is preserved by `consume` and `updateQuota` when
the resulting quota stays positive and by `recordFail` below the 401
threshold, but `recordSuccess` always leaves Active or Cooling (never
Disabled), `consume`/`updateQuota` force Cooling at quota 0, and
`recordFail(401)` at the threshold forces Expired. -/
theorem disabled_status_spec (t : TokenInfo) (h : t.status = TokenStatus.disabled) :
    (∀ e now, 0 < (consume t e now).1.quota →
      (consume t e now).1.status = TokenStatus.disabled) ∧
    (∀ n : Int, 0 < n → (update_quota t n).status = TokenStatus.disabled) ∧
    (∀ sc reason now, sc ≠ 401 →
      (record_fail t sc reason now).status = TokenStatus.disabled) ∧
    (∀ reason now, t.fail_count + 1 < FAIL_THRESHOLD →
      (record_fail t 401 reason now).status = TokenStatus.disabled) ∧
    (∀ b now, (record_success t b now).status ≠ TokenStatus.disabled) := by
  refine ⟨?_, ?_, ?_, ?_, ?_⟩
  · intro e now hq
    simp only [consume] at hq ⊢
    rw [if_neg (by omega), if_neg (by simp [h])]
    exact h
  · intro n hn
    simp only [update_quota]
    rw [if_neg (by omega), if_neg (by simp [h])]
    exact h
  · intro sc reason now hsc
    simp [record_fail, hsc, h]
  · intro reason now hlt
    simp only [record_fail]
    rw [if_neg (by simp)]
    simp only []
    rw [if_neg (by omega)]
    exact h
  · intro b now
    simp only [record_success]
    split <;> split <;> simp

/-- Witness for C7 (amended) at a concrete input. -/
theorem disabled_status_spec_witness :
    (update_quota c7_disabled 5).status = TokenStatus.disabled ∧
    (record_success c7_disabled true 0).status ≠ TokenStatus.disabled :=
  have h := disabled_status_spec c7_disabled (by decide)
  ⟨h.2.1 5 (by decide), h.2.2.2.2 true 0⟩

theorem select_eq_of_filter (pool : List TokenInfo) (r : Nat) (a : TokenInfo)
    (rest : List TokenInfo)
    (hf : pool.filter (fun t => decide (t.status = TokenStatus.active) && decide (0 < t.quota))
      = a :: rest) :
    select pool r = (tied_candidates a rest)[r % (tied_candidates a rest).length]? := by
  simp only [select, hf]
  rfl

theorem tied_candidates_ne_nil (a : TokenInfo) (rest : List TokenInfo) :
    tied_candidates a rest ≠ [] := by
  obtain ⟨t0, ht0, hq0⟩ := exists_mem_quota_eq_foldl a rest
  exact List.ne_nil_of_mem (List.mem_filter.mpr ⟨ht0, by simp [hq0]⟩)

theorem mem_tied_candidates {t a : TokenInfo} {rest : List TokenInfo} :
    t ∈ tied_candidates a rest ↔
      t ∈ a :: rest ∧ t.quota = rest.foldl (fun m t => max m t.quota) a.quota := by
  simp [tied_candidates, List.mem_filter]

/-- C1: `select` returns none iff no credential in the pool is Active with
positive quota; any returned credential is an Active, positive-quota member
of the pool whose quota is maximal among all Active positive-quota members. -/
theorem select_spec (pool : List TokenInfo) (r : Nat) :
    (select pool r = none ↔ ∀ t ∈ pool, ¬(t.status = TokenStatus.active ∧ 0 < t.quota)) ∧
    ∀ t, select pool r = some t →
      t ∈ pool ∧ t.status = TokenStatus.active ∧ 0 < t.quota ∧
      ∀ u ∈ pool, u.status = TokenStatus.active → 0 < u.quota → u.quota ≤ t.quota := by
  rcases hf : pool.filter
      (fun t => decide (t.status = TokenStatus.active) && decide (0 < t.quota))
    with _ | ⟨a, rest⟩
  · have hsel : select pool r = none := by
      simp only [select, hf]
    refine ⟨⟨fun _ t ht hcond => ?_, fun _ => hsel⟩, fun t hsome => ?_⟩
    · have h2 := List.filter_eq_nil_iff.mp hf t ht
      simp only [Bool.and_eq_true, decide_eq_true_eq] at h2
      exact h2 ⟨hcond.1, hcond.2⟩
    · rw [hsel] at hsome
      exact absurd hsome (by simp)
  · have hsel := select_eq_of_filter pool r a rest hf
    have hlen : 0 < (tied_candidates a rest).length :=
      List.length_pos.mpr (tied_candidates_ne_nil a rest)
    have hidx : r % (tied_candidates a rest).length < (tied_candidates a rest).length :=
      Nat.mod_lt r hlen
    refine ⟨⟨fun h0 => ?_, fun hall => ?_⟩, fun t hsome => ?_⟩
    · rw [hsel, List.getElem?_eq_getElem hidx] at h0
      exact absurd h0 (by simp)
    · exfalso
      have ha : a ∈ pool.filter
          (fun t => decide (t.status = TokenStatus.active) && decide (0 < t.quota)) := by
        rw [hf]
        exact List.mem_cons_self a rest
      have h2 := List.mem_filter.mp ha
      simp only [Bool.and_eq_true, decide_eq_true_eq] at h2
      exact hall a h2.1 ⟨h2.2.1, h2.2.2⟩
    · rw [hsel, List.getElem?_eq_getElem hidx] at hsome
      have htc : t ∈ tied_candidates a rest := by
        rw [← Option.some.inj hsome]
        exact List.getElem_mem hidx
      obtain ⟨htmem, htq⟩ := mem_tied_candidates.mp htc
      have h2 : t ∈ pool.filter
          (fun t => decide (t.status = TokenStatus.active) && decide (0 < t.quota)) := by
        rw [hf]
        exact htmem
      have h3 := List.mem_filter.mp h2
      simp only [Bool.and_eq_true, decide_eq_true_eq] at h3
      refine ⟨h3.1, h3.2.1, h3.2.2, fun u hu hust huq => ?_⟩
      have hu2 : u ∈ pool.filter
          (fun t => decide (t.status = TokenStatus.active) && decide (0 < t.quota)) :=
        List.mem_filter.mpr ⟨hu, by simp [hust, huq]⟩
      rw [hf] at hu2
      rw [htq]
      rcases List.mem_cons.mp hu2 with rfl | humem
      · exact le_quota_foldl_init rest u.quota
      · exact le_quota_foldl_of_mem rest a.quota u humem

/-- Witness for C1 at a concrete input: over quotas {10,10,5} the selected
credential is a quota-10 one and dominates the quota-5 one. -/
theorem select_spec_witness :
    c1_a ∈ c1_pool ∧ c1_a.status = TokenStatus.active ∧ 0 < c1_a.quota ∧
    c1_c.quota ≤ c1_a.quota :=
  have h := (select_spec c1_pool 0).2 c1_a (by decide)
  ⟨h.1, h.2.1, h.2.2.1, h.2.2.2 c1_c (by decide) (by decide) (by decide)⟩

/-- C6: when the usage query succeeds with remaining value `v`, `sync_usage`
rewrites the located credential to `record_success (update_quota · v)` and
returns true; when the query fails and `consume_on_fail` is false it returns
false with the pools completely unchanged. -/
theorem sync_usage_spec (pools : Pools) (token_str : String) (v : Int)
    (fe : EffortType) (cof iu : Bool) (now : Nat) (t0 : TokenInfo)
    (hfound : find_token pools (raw_token token_str) = some t0) :
    (mgr_sync_usage pools token_str (some v) fe cof iu now).2 = true ∧
    find_token (mgr_sync_usage pools token_str (some v) fe cof iu now).1 (raw_token token_str)
      = some (record_success (update_quota t0 v) iu now) ∧
    mgr_sync_usage pools token_str none fe false iu now = (pools, false) := by
  have hkey : ∀ t : TokenInfo, (record_success (update_quota t v) iu now).token = t.token := by
    intro t
    cases iu <;> simp [record_success, update_quota]
  refine ⟨?_, ?_, ?_⟩
  · simp only [mgr_sync_usage, hfound]
  · simp only [mgr_sync_usage, hfound]
    rw [find_token_update_first pools (raw_token token_str) _ hkey, hfound]
    rfl
  · simp [mgr_sync_usage, hfound]

/-- Witness for C6 at a concrete input. -/
theorem sync_usage_spec_witness :
    (mgr_sync_usage c6_pools "tok6" (some 3) EffortType.low true true 1).2 = true ∧
    mgr_sync_usage c6_pools "tok6" none EffortType.low false true 1 = (c6_pools, false) :=
  have h := sync_usage_spec c6_pools "tok6" 3 EffortType.low true true 1
    (default_token "tok6" 0) (by decide)
  ⟨h.1, h.2.2⟩

/-- C8 counterexample: entering an armed flush iteration with the dirty flag
set and a failing storage write, the flush swallows the error (nothing is
surfaced to the caller) and leaves the dirty flag cleared, not set. -/
theorem flush_failure_cex :
    flush_iter true (Except.error "io error") =
      (false, Except.ok (), ["Failed to save tokens: io error"]) := rfl

/-- C8 (amended): a failing flush write is logged and crashes nothing, but
the error is swallowed rather than surfaced to the triggering caller, and
the dirty flag — cleared before the write — stays cleared after the failed
flush; only a later mutation marks the state dirty again. -/
theorem flush_failure_spec (e : String) (d : Bool) :
    (flush_iter true (Except.error e)).2.2 = ["Failed to save tokens: " ++ e] ∧
    (flush_iter true (Except.error e)).2.1 = Except.ok () ∧
    (flush_iter true (Except.error e)).1 = false ∧
    schedule_save_dirty d = true :=
  ⟨rfl, rfl, rfl, rfl⟩

/-- Witness for C8 (amended) at a concrete input. -/
theorem flush_failure_spec_witness :
    (flush_iter true (Except.error "disk full")).1 = false ∧
    schedule_save_dirty false = true :=
  have h := flush_failure_spec "disk full" false
  ⟨h.2.2.1, h.2.2.2⟩

/-- C9 counterexample: adding the secret of pool `A` into pool `B` is
accepted (returns true) and leaves the same secret in two distinct pools. -/
theorem add_unique_cex :
    (mgr_add c9_pools "sec9" "B" 0).2 = true ∧
    pool_contains (mgr_add c9_pools "sec9" "B" 0).1 "A" "sec9" = true ∧
    pool_contains (mgr_add c9_pools "sec9" "B" 0).1 "B" "sec9" = true := by decide

/-- C9 (amended): `add` rejects a duplicate secret only within the target
pool — it returns false exactly when the target pool already holds the
stripped secret, and then leaves the pools unchanged apart from lazily
creating the target pool; cross-pool duplicates are not prevented. -/
theorem add_duplicate_spec (pools : Pools) (token pn : String) (now : Nat) :
    ((mgr_add pools token pn now).2 = false ↔
      ∃ t ∈ (pool_find (ensure_pool pools pn) pn).getD [],
        t.token = strip_leading_sso token) ∧
    ((mgr_add pools token pn now).2 = false →
      (mgr_add pools token pn now).1 = ensure_pool pools pn) := by
  constructor
  · have hcond : (mgr_add pools token pn now).2 = false ↔
        (pool_get ((pool_find (ensure_pool pools pn) pn).getD [])
          (strip_leading_sso token)).isSome = true := by
      simp only [mgr_add]
      split
      · rename_i hdup
        simp [hdup]
      · rename_i hdup
        simp [hdup]
    rw [hcond]
    simp only [pool_get, List.find?_isSome, decide_eq_true_eq]
  · simp only [mgr_add]
    split
    · intro _
      rfl
    · intro hfalse
      exact absurd hfalse (by simp)

/-- Witness for C9 (amended) at a concrete input. -/
theorem add_duplicate_spec_witness :
    (mgr_add [("A", [default_token "s9" 0])] "s9" "A" 0).2 = false :=
  (add_duplicate_spec [("A", [default_token "s9" 0])] "s9" "A" 0).1.mpr
    ⟨default_token "s9" 0, by decide, by decide⟩

/-- C10 counterexample: the stored secret `xsso=y` (which contains `sso=`)
*is* located by `consume`-style resolution of the crafted input
`xsssso=o=y`, whose single left-to-right deletion pass yields `xsso=y`. -/
theorem sso_resolution_cex :
    ("sso=".data <:+: "xsso=y".data) ∧
    raw_token "xsssso=o=y" = "xsso=y" ∧
    find_token c10_pools (raw_token "xsssso=o=y") = some (default_token "xsso=y" 0) ∧
    (mgr_consume c10_pools "xsssso=o=y" EffortType.low 0).2 = true := by decide

/-- C10 (amended): the lookup operations resolve their token argument by one
left-to-right pass deleting every occurrence of `sso=` (not only a leading
one), so `consume`, `sync_usage` and `record_fail` treat `t` and
`"sso=" ++ t` identically; a stored secret containing `sso=` is never
located by resolving the secret string itself (its resolution key is
strictly shorter), though crafted inputs can still resolve to it. -/
theorem sso_resolution_spec (pools : Pools) (ts s : String) (tok : TokenInfo)
    (e : EffortType) (sc : Nat) (reason : String) (q : Option Int) (fe : EffortType)
    (cof iu : Bool) (now : Nat) :
    raw_token ("sso=" ++ ts) = raw_token ts ∧
    mgr_consume pools ("sso=" ++ ts) e now = mgr_consume pools ts e now ∧
    mgr_record_fail pools ("sso=" ++ ts) sc reason now
      = mgr_record_fail pools ts sc reason now ∧
    mgr_sync_usage pools ("sso=" ++ ts) q fe cof iu now
      = mgr_sync_usage pools ts q fe cof iu now ∧
    ("sso=".data <:+: s.data → find_token pools (raw_token s) = some tok →
      tok.token ≠ s) := by
  have hraw : raw_token ("sso=" ++ ts) = raw_token ts := by
    simp only [raw_token]
    congr 1
  refine ⟨hraw, ?_, ?_, ?_, ?_⟩
  · simp only [mgr_consume, hraw]
  · simp only [mgr_record_fail, hraw]
  · simp only [mgr_sync_usage, mgr_consume, hraw]
  · intro hinf hfind heq
    have hkey := find_token_some_key hfind
    rw [heq] at hkey
    have hdata : s.data = strip_sso_all s.data := congrArg String.data hkey
    have hlt : (strip_sso_all s.data).length < s.data.length :=
      strip_sso_all_length_lt s.data hinf
    have hlength := congrArg List.length hdata
    omega

/-- Witness for C10 (amended) at a concrete input. -/
theorem sso_resolution_spec_witness :
    raw_token ("sso=" ++ "t10") = raw_token "t10" ∧ (default_token "xy" 0).token ≠ "xsso=y" :=
  have h := sso_resolution_spec c10w_pools "t10" "xsso=y" (default_token "xy" 0)
    EffortType.low 0 "" none EffortType.low false false 0
  ⟨h.1, h.2.2.2.2 (by decide) (by decide)⟩
